import Mathlib

set_option maxRecDepth 10000

namespace BuddyC

/-- Minimum block order, `#define MIN_ORDER 12` (buddy.c line 25). -/
def MIN_ORDER : Nat := 12

/-- Maximum block order, `#define MAX_ORDER 20` (buddy.c line 26). -/
def MAX_ORDER : Nat := 20

/-- Page (unit) size, `#define PAGE_SIZE (1<<MIN_ORDER)` (buddy.c line 28). -/
def PAGE_SIZE : Nat := 2 ^ MIN_ORDER

/-- Number of entries of `g_pages`, `(1<<MAX_ORDER)/PAGE_SIZE` (buddy.c line 70). -/
def N_PAGES : Nat := 2 ^ MAX_ORDER / PAGE_SIZE

/-- One entry of the `g_pages` descriptor table (`page_t`, buddy.c lines 52-58).
Addresses are modelled as byte offsets from `g_memory` (a `Nat`), so the
`char* addr` field becomes the offset `addr : Nat`; the intrusive
`struct list_head list` member is modelled by membership of the page's index
in the per-order lists of the state (see `St`). -/
structure Page where
  free : Bool
  order : Nat
  addr : Nat
deriving DecidableEq

/-- Arbitrary descriptor contents, used for the entries of `g_pages` that
`buddy_init` does not touch (indices `≥ N_PAGES` do not exist in C; reads of
them would be out of bounds). -/
def defaultPage : Page := ⟨false, 0, 0⟩

/-- The allocator's global state: `free_area` (one intrusive list per order,
modelled as a list of `g_pages` indices per order, front of the Lean list =
node right after the sentinel) and the `g_pages` table (buddy.c lines 64-70).
Both are total functions; indices the C program never initializes or that lie
outside the arrays simply carry values no faithful execution path reads,
except for the reads modelled explicitly with an `oob` parameter. -/
structure St where
  freeArea : Nat → List Nat
  pages : Nat → Page

/-- `PAGE_TO_ADDR` (buddy.c line 30), as a byte offset from `g_memory`. -/
def PAGE_TO_ADDR (i : Nat) : Nat := i * PAGE_SIZE

/-- `ADDR_TO_PAGE` (buddy.c line 33), on byte offsets from `g_memory`. -/
def ADDR_TO_PAGE (addr : Nat) : Nat := addr / PAGE_SIZE

/-- `BUDDY_ADDR` (buddy.c lines 36-37): offset XOR `(1<<o)`. -/
def BUDDY_ADDR (addr : Nat) (o : Nat) : Nat := addr ^^^ (2 ^ o)

/-- `list_del(&p->list)` of the list library: unlinks the node from whatever
free list physically contains it.  Modelled as erasing the index from every
per-order list (a node is physically in at most one list). -/
def listDel (s : St) (i : Nat) : St :=
  { s with freeArea := fun o => (s.freeArea o).erase i }

/-- `list_add(&p->list, &free_area[o])`: inserts the node right after the
sentinel, i.e. at the front of the list. -/
def listAdd (s : St) (i o : Nat) : St :=
  { s with freeArea := fun o2 => if o2 = o then i :: s.freeArea o2 else s.freeArea o2 }

/-- Overwrite one descriptor of `g_pages`. -/
def setPage (s : St) (i : Nat) (p : Page) : St :=
  { s with pages := fun j => if j = i then p else s.pages j }

/-- `buddy_init` (buddy.c lines 83-101): every descriptor of the 256-entry
table gets `free = 1`, `order = MAX_ORDER`, `addr = PAGE_TO_ADDR(i)`; all
free lists become empty; the descriptor of page 0 is added to
`free_area[MAX_ORDER]`. -/
def buddy_init : St :=
  { freeArea := fun o => if o = MAX_ORDER then [0] else []
    pages := fun i => if i < N_PAGES then ⟨true, MAX_ORDER, PAGE_TO_ADDR i⟩ else defaultPage }

/-- Ceiling of log2 on naturals: the least `k` with `n ≤ 2^k` (and `0` for
`n ≤ 1`).  This is the exact value of `ceil(log2((double)size))` in
`buddy_alloc` (buddy.c line 119) for every positive `int` argument: over
`1 ≤ n < 2^31` the double-precision `log2` is many orders of magnitude more
accurate than the distance from `log2 n` to the nearest integer it would have
to cross for `ceil` to differ. -/
def clog2 (n : Nat) : Nat := ((List.range 64).find? (fun k => n ≤ 2 ^ k)).getD 64

/-- The value of `int order = ceil(log2(size));` (buddy.c line 119) before
clamping.  For `size ≤ 0`, `log2` returns `-inf` (size 0) or NaN (negative),
and the conversion to `int` is undefined behaviour in C; on the x86-64 target
(`cvttsd2si`) both convert to `INT_MIN`, modelled here as `-(2^31)`.  Every
value `< MIN_ORDER` is then clamped identically, so only `< MIN_ORDER`
matters. -/
def ceilLog2Int (size : Int) : Int :=
  if size ≤ 0 then -(2 ^ 31) else (clog2 size.toNat : Int)

/-- The order actually used by `buddy_alloc` after the clamp
`if(order<MIN_ORDER) order = MIN_ORDER;` (buddy.c lines 119-122). -/
def computeOrder (size : Int) : Nat :=
  let o := ceilLog2Int size
  if o < (MIN_ORDER : Int) then MIN_ORDER else o.toNat

/-- The index into `free_area` used by the first `list_for_each` of
`buddy_alloc` (buddy.c line 126, `&free_area[order]`).  `free_area` has
`MAX_ORDER+1` entries, so any value above `MAX_ORDER` is an out-of-bounds
access. -/
def allocFirstProbeIndex (size : Int) : Nat := computeOrder size

/-- The scan `list_for_each(head, &free_area[newOrder]) { curr = ...; if
(curr->free == 1) break; }` (buddy.c lines 143-146): `curr` ends at the first
node whose `free` flag is set; if no node is flagged free but the list is
nonempty, `curr` ends at the last node; on an empty list `curr` keeps its
previous value `NULL`. -/
def scanPick (s : St) : List Nat → Option Nat
  | [] => none
  | [j] => some j
  | j :: rest => if (s.pages j).free then some j else scanPick s rest

/-- The outer search loop of `buddy_alloc`'s slow path (buddy.c lines
140-148): starting at `order+1`, return `NULL` as soon as `newOrder >
MAX_ORDER`, otherwise scan `free_area[newOrder]` with `scanPick` and advance
while nothing is picked.  The `fuel` argument only drives the structural
recursion; `buddy_alloc` passes enough for the `newOrder > MAX_ORDER` guard
to be reached first. -/
def scanUpF (s : St) : Nat → Nat → Option (Nat × Nat)
  | 0, _ => none
  | fuel + 1, no =>
    if MAX_ORDER < no then none
    else
      match scanPick s (s.freeArea no) with
      | some j => some (j, no)
      | none => scanUpF s fuel (no + 1)

/-- The split loop of `buddy_alloc` (buddy.c lines 153-161), run `d` times
starting from `newOrder = k + d` down to `k + 1`: each step computes
`lowerAddr = BUDDY_ADDR(curr->addr, newOrder-1)`, rewrites the descriptor at
that address (`order = newOrder-1`, `free = 1`, `addr = lowerAddr`) and
prepends it to `free_area[newOrder-1]`. -/
def splitDown (j k : Nat) : Nat → St → St
  | 0, s => s
  | d + 1, s =>
    let lowerAddr := BUDDY_ADDR ((s.pages j).addr) (k + d)
    let rIdx := ADDR_TO_PAGE lowerAddr
    let s1 := setPage s rIdx ⟨true, k + d, lowerAddr⟩
    let s2 := listAdd s1 rIdx (k + d)
    splitDown j k d s2

/-- `buddy_alloc` after the order computation (buddy.c lines 123-166).  The
first `list_for_each` (lines 126-129) walks the whole list — its
`if(curr==NULL) break` can never fire since `list_entry` is container_of —
so `curr` ends at the LAST node of `free_area[order]`, or stays `NULL` when
the list is empty.  The fast path (lines 131-137) unlinks that node, clears
its `free` flag (the `order` field is not written) and returns its address.
The slow path (lines 139-165) scans upward, unlinks the found block, splits
it down to `order`, sets `order` and `free = 0` on the kept (low) half and
returns its address. -/
def allocOrder (s : St) (order : Nat) : Option Nat × St :=
  match (s.freeArea order).getLast? with
  | some i =>
    let s1 := setPage (listDel s i) i { s.pages i with free := false }
    (some ((s.pages i).addr), s1)
  | none =>
    match scanUpF s (MAX_ORDER + 2) (order + 1) with
    | none => (none, s)
    | some (j, m) =>
      let s1 := listDel s j
      let s2 := splitDown j order (m - order) s1
      let s3 := setPage s2 j { s2.pages j with order := order, free := false }
      (some ((s3.pages j).addr), s3)

/-- `buddy_alloc` (buddy.c lines 117-169): compute the clamped order, then
run `allocOrder`.  Returns the allocated block's byte offset (or `none` for
the C `NULL`) together with the new state. -/
def buddy_alloc (s : St) (size : Int) : Option Nat × St :=
  allocOrder s (computeOrder size)

/-- `findFreeBuddyManually` (buddy.c lines 173-183): scan `free_area[order]`
front to back and return the first node whose `addr` field equals the given
address. -/
def findFreeBuddyManually (s : St) (addrv : Nat) (order : Nat) : Option Nat :=
  (s.freeArea order).find? (fun j => (s.pages j).addr == addrv)

/-- One body of `buddy_free`'s coalescing loop (buddy.c lines 211-223):
unlink the buddy, keep whichever of the two descriptors has the smaller
`addr` field as the block (`freedBlock`), and increment that descriptor's
`order` field.  Returns the new state and the index of the kept
descriptor. -/
def mergeStep (s : St) (f b : Nat) : St × Nat :=
  let s1 := listDel s b
  let f2 := if (s1.pages f).addr < (s1.pages b).addr then f else b
  let s2 := setPage s1 f2 { s1.pages f2 with order := (s1.pages f2).order + 1 }
  (s2, f2)

/-- Iterations 2, 3, ... of `buddy_free`'s coalescing loop (buddy.c lines
209-229): from the second iteration on, the buddy is located with
`findFreeBuddyManually` (line 228), and the loop runs while that search
succeeds, the found node's `free` flag is set and `order < MAX_ORDER`.
Returns the final (state, kept index, order) and the number of merge
iterations performed here.  Structural fuel; each iteration increments the
order, so `MAX_ORDER - o` steps always reach the `o < MAX_ORDER` guard. -/
def coalesceRestF : Nat → St → Nat → Nat → (St × Nat × Nat) × Nat
  | 0, s, f, o => ((s, f, o), 0)
  | fuel + 1, s, f, o =>
    if o < MAX_ORDER then
      match findFreeBuddyManually s (BUDDY_ADDR ((s.pages f).addr) o) o with
      | none => ((s, f, o), 0)
      | some b =>
        if (s.pages b).free then
          let p := mergeStep s f b
          let r := coalesceRestF fuel p.1 p.2 (o + 1)
          (r.1, r.2 + 1)
        else ((s, f, o), 0)
    else ((s, f, o), 0)

/-- Iterations 2, 3, ... of `buddy_free`'s coalescing loop, with the fuel
instantiated so that the `o < MAX_ORDER` guard is always reached. -/
def coalesceRest (s : St) (f o : Nat) : (St × Nat × Nat) × Nat :=
  coalesceRestF (MAX_ORDER - o) s f o

/-- The merging phase of `buddy_free` (buddy.c lines 197-229).  The FIRST
iteration is special: the buddy is obtained by directly indexing `g_pages`
with `ADDR_TO_PAGE(BUDDY_ADDR(freedBlock->addr, order))` (lines 203-204) and
the merge is guarded only by that descriptor's `free` flag (line 208 and the
loop condition) and `order < MAX_ORDER` — no free-list membership check.
When the recorded order is `MAX_ORDER` the buddy index is `≥ N_PAGES`, an
out-of-bounds read of `g_pages` in C; the value that read yields is the
parameter `oob` (the result is independent of it, because `order <
MAX_ORDER` then fails).  Returns the final (state, kept index, order) and
the total number of merge iterations. -/
def freeMergePhase (oob : Bool) (s : St) (addr : Nat) : (St × Nat × Nat) × Nat :=
  let f := ADDR_TO_PAGE addr
  let o := (s.pages f).order
  let bIdx := ADDR_TO_PAGE (BUDDY_ADDR ((s.pages f).addr) o)
  let bFree := if bIdx < N_PAGES then (s.pages bIdx).free else oob
  if bFree = true ∧ o < MAX_ORDER then
    let p := mergeStep s f bIdx
    let r := coalesceRest p.1 p.2 (o + 1)
    (r.1, r.2 + 1)
  else ((s, f, o), 0)

/-- `buddy_free` (buddy.c lines 194-235): run the merging phase, then
`list_add` the surviving descriptor to `free_area[order]` for the final
order and set its `free` flag (lines 233-234). -/
def buddy_free (oob : Bool) (s : St) (addr : Nat) : St :=
  let r := freeMergePhase oob s addr
  let s2 := listAdd r.1.1 r.1.2.1 r.1.2.2
  setPage s2 r.1.2.1 { s2.pages r.1.2.1 with free := true }

/-- Units covered by a block given as (start unit index, order), following
the spec's projection onto unit indices: `2^(order - MIN_ORDER)` consecutive
units starting at the block's start unit. -/
def coveredUnits (b : Nat × Nat) : List Nat :=
  (List.range (2 ^ (b.2 - MIN_ORDER))).map (fun t => b.1 + t)

/-- Stated from the spec's partition invariant: a collection of blocks
(start unit, order) partitions the arena when every one of the `N_PAGES`
units is covered exactly once. -/
def isPartition (blocks : List (Nat × Nat)) : Bool :=
  let all := blocks.flatMap coveredUnits
  (List.range N_PAGES).all (fun u => all.count u == 1)

/-- The free blocks of a state, read off the free lists: a node on
`free_area[o]` is a free block of order `o` starting at its index. -/
def freeBlocksOf (s : St) : List (Nat × Nat) :=
  (List.range (MAX_ORDER + 1)).flatMap (fun o => (s.freeArea o).map (fun i => (i, o)))

/-- Concrete run, step 1: `buddy_init; A = buddy_alloc(8192)`.
Returns address 0; block A is page 0 at order 13. -/
def exA1 : Option Nat × St := buddy_alloc buddy_init 8192

/-- Concrete run, step 2: `B = buddy_alloc(4096)` — splits the order-13
block at page 2, returns address 8192 (page 2), leaving page 3 free at
order 12. -/
def exA2 : Option Nat × St := buddy_alloc exA1.2 4096

/-- Concrete run, step 3: `C = buddy_alloc(4096)` — exact fit, returns
address 12288 (page 3). -/
def exA3 : Option Nat × St := buddy_alloc exA2.2 4096

/-- Concrete run, step 4: `buddy_free(B)` (address 8192, returned by step 2
and not freed before).  Its buddy page 3 is allocated, so no merge: page 2
goes back on `free_area[12]`. -/
def exAfterFreeB : St := buddy_free false exA3.2 8192

/-- Concrete run, step 5: `buddy_free(A)` (address 0, returned by step 1 and
not freed before).  The recorded order is 13 and the order-13 buddy is page
2 — flagged free but only a free block of order 12 (it is on
`free_area[12]`, and page 3 of its order-13 range is still allocated).  The
first loop iteration checks only the flag, merges anyway, and then cascades
all the way to order 20. -/
def exAfterFreeA : St := buddy_free false exAfterFreeB 0

/-- C1: the partition invariant is NOT preserved by valid alloc/free
sequences.  After `init; A=alloc(8192); B=alloc(4096); C=alloc(4096);
free(B); free(A)` — every freed address was returned by a prior successful
alloc and freed once — the partition still held before `free(A)` (free
blocks plus the live blocks A at page 0 order 13 and C at page 3 order 12
cover every unit exactly once), but after `free(A)` the free lists hold the
single order-20 block at page 0 while block C (page 3, order 12, address
12288) is still allocated: unit 3 is covered twice, so the live blocks no
longer partition the arena. -/
theorem C1_partition_invariant_fails :
    exA1.1 = some 0 ∧ exA2.1 = some 8192 ∧ exA3.1 = some 12288 ∧
    isPartition (freeBlocksOf exAfterFreeB ++ [(0, 13), (3, 12)]) = true ∧
    isPartition (freeBlocksOf exAfterFreeA ++ [(3, 12)]) = false ∧
    exAfterFreeA.freeArea MAX_ORDER = [0] ∧
    (exAfterFreeA.pages 0).order = MAX_ORDER ∧
    (exAfterFreeA.pages 3).free = false := by
  decide

/-- C4: descriptor flag / free-list membership consistency fails already in
the state produced by `buddy_init` itself (the empty call sequence):
`buddy_init` sets `free = 1` on every one of the 256 descriptors (buddy.c
line 88) but puts only page 0 on a free list (line 100), so page 1's
descriptor has its free flag set while it is a member of no free list. -/
theorem C4_flag_list_consistency_fails :
    (buddy_init.pages 1).free = true ∧
    (∀ o, o < MAX_ORDER + 1 → 1 ∉ buddy_init.freeArea o) ∧
    (∀ o, MAX_ORDER < o → buddy_init.freeArea o = []) := by
  refine ⟨by decide, by decide, ?_⟩
  intro o ho
  have h : o ≠ MAX_ORDER := by omega
  simp [buddy_init, h]

/-- C2, counterexample: for size `2^MAX_ORDER + 1` the computed order is 21,
and the very first `list_for_each` of `buddy_alloc` (buddy.c line 126) reads
`free_area[21]` — `free_area` has only `MAX_ORDER + 1 = 21` entries (indices
0..20), so the claim that `buddy_alloc` never accesses `free_area` outside
indices `0..MAX_ORDER` is false: the probe happens before the
`newOrder > MAX_ORDER` bound check on line 142. -/
theorem C2_first_probe_out_of_bounds :
    allocFirstProbeIndex (2 ^ MAX_ORDER + 1) = 21 ∧ MAX_ORDER < 21 := by
  decide

/-- Helper: the upward scan of `buddy_alloc` immediately returns `NULL` when
it starts above `MAX_ORDER`. -/
theorem scanUpF_gt_max (s : St) (fuel no : Nat) (h : MAX_ORDER < no) :
    scanUpF s fuel no = none := by
  cases fuel with
  | zero => rfl
  | succ fuel => simp [scanUpF, h]

/-- Helper: `allocOrder` fails without touching the state when the order is
already above `MAX_ORDER` (benign model of the out-of-bounds first probe as
an empty list). -/
theorem allocOrder_none_of_gt_max (s : St) (order : Nat)
    (hb : ∀ o, MAX_ORDER < o → s.freeArea o = []) (ho : MAX_ORDER < order) :
    allocOrder s order = (none, s) := by
  have h1 : s.freeArea order = [] := hb _ ho
  have h2 : scanUpF s (MAX_ORDER + 2) (order + 1) = none :=
    scanUpF_gt_max s _ _ (by omega)
  simp [allocOrder, h1, h2]

/-- Helper: `buddy_init` leaves every free list above `MAX_ORDER` empty. -/
theorem buddy_init_freeArea_gt_max : ∀ o, MAX_ORDER < o → buddy_init.freeArea o = [] := by
  intro o ho
  have h : o ≠ MAX_ORDER := by omega
  simp [buddy_init, h]

/-- C2, amended: for any size whose computed order exceeds `MAX_ORDER` (in
particular `2^MAX_ORDER + 1`), `buddy_alloc` returns the failure result
`NULL` and leaves the state unchanged, PROVIDED the out-of-bounds read of
`free_area[order]` behaves like an empty list (the hypothesis on `s`); the
upward scan then fails its very first `newOrder > MAX_ORDER` check without
touching any further out-of-range index. -/
theorem C2_exhaustion_returns_null (s : St) (size : Int)
    (hb : ∀ o, MAX_ORDER < o → s.freeArea o = [])
    (ho : MAX_ORDER < computeOrder size) :
    buddy_alloc s size = (none, s) :=
  allocOrder_none_of_gt_max s _ hb ho

/-- Witness for `C2_exhaustion_returns_null`: from the post-init state,
requesting `2^20 + 1` bytes fails with `NULL` and changes nothing. -/
theorem C2_exhaustion_returns_null_witness :
    buddy_alloc buddy_init (2 ^ MAX_ORDER + 1) = (none, buddy_init) :=
  C2_exhaustion_returns_null buddy_init _ buddy_init_freeArea_gt_max (by decide)

/-- Concrete run for C7: four order-18 allocations from init, then freeing
the first (page 0, address 0) and the third (page 128, address 524288).
Neither free can merge (each buddy is still allocated), so `free_area[18]`
ends as `[128, 0]`: page 128 is the head (most recently `list_add`ed), page
0 the tail. -/
def exB : St :=
  let b1 := buddy_alloc buddy_init 262144
  let b2 := buddy_alloc b1.2 262144
  let b3 := buddy_alloc b2.2 262144
  let b4 := buddy_alloc b3.2 262144
  buddy_free false (buddy_free false b4.2 0) 524288

/-- C7, counterexample: in the reachable state `exB`, `free_area[18]` is
`[128, 0]` (head block page 128, address 524288), yet `buddy_alloc(262144)`
(computed order 18) returns address 0 — the TAIL of the list, not the head:
the exact-fit loop (buddy.c lines 126-129) walks the entire list, so `curr`
ends at the last node, and that is the block unlinked and returned. -/
theorem C7_returns_tail_not_head :
    exB.freeArea 18 = [128, 0] ∧
    (exB.freeArea 18).head? = some 128 ∧
    (exB.pages 128).addr = 524288 ∧
    (exB.pages 128).free = true ∧
    (buddy_alloc exB 262144).1 = some 0 ∧
    (buddy_alloc exB 262144).1 ≠ some ((exB.pages 128).addr) := by
  decide

/-- C7, amended: whenever `free_area[k]` for the requested order `k` is
non-empty, `buddy_alloc` removes the LAST block of that list (the least
recently inserted one), clears its `free` flag (leaving its `order` field
untouched), returns that block's address, and changes nothing else. -/
theorem C7_exact_fit_takes_last (s : St) (size : Int) (i : Nat)
    (h : (s.freeArea (computeOrder size)).getLast? = some i) :
    buddy_alloc s size =
      (some ((s.pages i).addr), setPage (listDel s i) i { s.pages i with free := false }) := by
  simp [buddy_alloc, allocOrder, h]

/-- Witness for `C7_exact_fit_takes_last`: from the post-init state,
`free_area[20] = [0]`, and `buddy_alloc(2^20)` takes block 0. -/
theorem C7_exact_fit_takes_last_witness :
    (buddy_init.freeArea (computeOrder (2 ^ MAX_ORDER : Int))).getLast? = some 0 ∧
    buddy_alloc buddy_init (2 ^ MAX_ORDER : Int) =
      (some ((buddy_init.pages 0).addr),
        setPage (listDel buddy_init 0) 0 { buddy_init.pages 0 with free := false }) :=
  ⟨by decide, C7_exact_fit_takes_last buddy_init _ 0 (by decide)⟩

/-- C8: a request of zero or negative size is clamped to the minimum order:
`buddy_alloc` behaves exactly as a request for `2^MIN_ORDER` bytes.  On the
C side `ceil(log2(size))` yields `-inf`/NaN whose int conversion on the
target is far below `MIN_ORDER` (see `ceilLog2Int`), and line 120's clamp
then raises the order to `MIN_ORDER`, exactly the order computed for
`2^MIN_ORDER`. -/
theorem C8_nonpositive_size_clamped (s : St) (size : Int) (h : size ≤ 0) :
    buddy_alloc s size = buddy_alloc s (2 ^ MIN_ORDER : Int) := by
  have h1 : computeOrder size = MIN_ORDER := by
    simp only [computeOrder, ceilLog2Int, if_pos h]
    decide
  have h2 : computeOrder (2 ^ MIN_ORDER : Int) = MIN_ORDER := by decide
  simp [buddy_alloc, h1, h2]

/-- Witness for `C8_nonpositive_size_clamped` at size `-7`. -/
theorem C8_nonpositive_size_clamped_witness :
    buddy_alloc buddy_init (-7) = buddy_alloc buddy_init (2 ^ MIN_ORDER : Int) :=
  C8_nonpositive_size_clamped buddy_init (-7) (by decide)

/-- C3, counterexample: in the reachable state `exAfterFreeB` (see the
concrete run above), freeing address 0 has recorded order 13 and order-13
buddy address 8192 (page 2).  Page 2 is NOT present in `free_area[13]` (that
list is empty; page 2 sits on `free_area[12]`), and `findFreeBuddyManually`
at order 13 accordingly fails — yet `buddy_free`'s FIRST loop iteration
merges anyway (7 merge iterations happen in total), because the first
iteration tests only the buddy descriptor's `free` flag (buddy.c line 208),
not its presence in the free list for order `o`. -/
theorem C3_first_iteration_skips_list_check :
    (exAfterFreeB.pages 0).order = 13 ∧
    (exAfterFreeB.pages 2).free = true ∧
    exAfterFreeB.freeArea 13 = [] ∧
    (2 ∈ exAfterFreeB.freeArea 12) ∧
    findFreeBuddyManually exAfterFreeB (BUDDY_ADDR ((exAfterFreeB.pages 0).addr) 13) 13 = none ∧
    (freeMergePhase false exAfterFreeB 0).2 = 7 := by
  decide

/-- C3, amended: from the SECOND coalescing iteration on, a merge at order
`o` is performed only if `findFreeBuddyManually` actually finds the buddy in
the free list for order `o` (and its flag is set and `o < MAX_ORDER`): if
any merge happens in the rest of the loop, the buddy was a member of
`free_area[o]`.  The first iteration (see the counterexample) is guarded by
the descriptor's `free` flag alone. -/
theorem C3_later_merges_require_list_membership (s : St) (f o : Nat)
    (h : (coalesceRest s f o).2 ≠ 0) :
    ∃ b, findFreeBuddyManually s (BUDDY_ADDR ((s.pages f).addr) o) o = some b ∧
      (s.pages b).free = true ∧ o < MAX_ORDER := by
  unfold coalesceRest at h
  rcases Nat.lt_or_ge o MAX_ORDER with ho | ho
  · have hf : MAX_ORDER - o = (MAX_ORDER - o - 1) + 1 := by omega
    rw [hf] at h
    unfold coalesceRestF at h
    rw [if_pos ho] at h
    split at h
    · exact absurd rfl h
    · rename_i b hb
      split at h
      · rename_i hfr
        exact ⟨b, hb, hfr, ho⟩
      · exact absurd rfl h
  · have hf : MAX_ORDER - o = 0 := by omega
    rw [hf] at h
    exact absurd rfl h

/-- Hand-built state for the witness of
`C3_later_merges_require_list_membership`: page 0 is an order-13 block being
freed, its buddy page 2 is a genuine order-13 free block on
`free_area[13]`. -/
def exW : St :=
  { freeArea := fun o => if o = 13 then [2] else []
    pages := fun i =>
      if i = 2 then ⟨true, 13, 8192⟩ else if i = 0 then ⟨false, 13, 0⟩ else defaultPage }

/-- Witness for `C3_later_merges_require_list_membership`: in `exW` the
rest-loop performs a merge, and indeed the buddy is found on
`free_area[13]`. -/
theorem C3_later_merges_require_list_membership_witness :
    ∃ b, findFreeBuddyManually exW (BUDDY_ADDR ((exW.pages 0).addr) 13) 13 = some b ∧
      (exW.pages b).free = true ∧ 13 < MAX_ORDER :=
  C3_later_merges_require_list_membership exW 0 13 (by decide)

/-- C6: at every coalescing step of `buddy_free` (both the first iteration
and all later ones go through `mergeStep`), the descriptor kept as the
canonical merged block is the one with the lower address: provided the two
descriptors carry their own canonical addresses (which `buddy_init` and
every later write maintain: a descriptor's `addr` field is only ever set to
the address of its own page), the kept index is `min f b`. -/
theorem C6_merge_keeps_lower_address (s : St) (f b : Nat)
    (hf : (s.pages f).addr = PAGE_TO_ADDR f) (hb : (s.pages b).addr = PAGE_TO_ADDR b) :
    (mergeStep s f b).2 = min f b := by
  have hstep : (mergeStep s f b).2 = if (s.pages f).addr < (s.pages b).addr then f else b := rfl
  rw [hstep, hf, hb, Nat.min_def]
  simp only [PAGE_TO_ADDR, PAGE_SIZE, MIN_ORDER]
  norm_num
  split <;> split <;> omega

/-- Witness for `C6_merge_keeps_lower_address` on pages 5 and 9 of the
post-init table. -/
theorem C6_merge_keeps_lower_address_witness :
    (mergeStep buddy_init 5 9).2 = min 5 9 :=
  C6_merge_keeps_lower_address buddy_init 5 9 (by decide) (by decide)

/-- Helper for C9: the rest of the coalescing loop performs at most `fuel`
merges, and its final order is the starting order plus the number of merges
(the order increases by exactly one per iteration). -/
theorem coalesceRestF_count (fuel : Nat) : ∀ s f o,
    (coalesceRestF fuel s f o).2 ≤ fuel ∧
    (coalesceRestF fuel s f o).1.2.2 = o + (coalesceRestF fuel s f o).2 := by
  induction fuel with
  | zero => intro s f o; exact ⟨Nat.le_refl 0, rfl⟩
  | succ fuel ih =>
    intro s f o
    unfold coalesceRestF
    split
    · split
      · exact ⟨Nat.zero_le _, rfl⟩
      · rename_i b hb
        split
        · have h := ih (mergeStep s f b).1 (mergeStep s f b).2 (o + 1)
          refine ⟨?_, ?_⟩ <;> dsimp only <;> omega
        · exact ⟨Nat.zero_le _, rfl⟩
    · exact ⟨Nat.zero_le _, rfl⟩

/-- C9: `buddy_free` terminates (the model is total by construction, the
loop having at most `MAX_ORDER - order` iterations), and for every freed
address whose recorded order is at least `MIN_ORDER` the coalescing loop
performs at most `MAX_ORDER - MIN_ORDER` merge iterations; the order grows
by exactly one per iteration (final order = recorded order + iteration
count) and never exceeds `MAX_ORDER` when the recorded order did not.
Stopping early (count < MAX_ORDER - MIN_ORDER, a partial merge) is a
possible outcome of the same definition. -/
theorem C9_free_terminates_bounded (oob : Bool) (s : St) (addr : Nat)
    (h : MIN_ORDER ≤ (s.pages (ADDR_TO_PAGE addr)).order) :
    (freeMergePhase oob s addr).2 ≤ MAX_ORDER - MIN_ORDER ∧
    (freeMergePhase oob s addr).1.2.2 =
      (s.pages (ADDR_TO_PAGE addr)).order + (freeMergePhase oob s addr).2 ∧
    ((s.pages (ADDR_TO_PAGE addr)).order ≤ MAX_ORDER →
      (freeMergePhase oob s addr).1.2.2 ≤ MAX_ORDER) := by
  unfold freeMergePhase
  dsimp only
  generalize hF : ADDR_TO_PAGE addr = f at h ⊢
  generalize hO : (s.pages f).order = o at h ⊢
  generalize hB : ADDR_TO_PAGE (BUDDY_ADDR ((s.pages f).addr) o) = bIdx
  generalize hBF : (if bIdx < N_PAGES then (s.pages bIdx).free else oob) = bFree
  by_cases hc : bFree = true ∧ o < MAX_ORDER
  · rw [if_pos hc]
    have hr := coalesceRestF_count (MAX_ORDER - (o + 1))
      (mergeStep s f bIdx).1 (mergeStep s f bIdx).2 (o + 1)
    obtain ⟨-, ho⟩ := hc
    unfold coalesceRest
    dsimp only
    refine ⟨?_, ?_, ?_⟩ <;> omega
  · rw [if_neg hc]
    exact ⟨Nat.zero_le _, rfl, fun hle => hle⟩

/-- Helper: the clamp on line 120-122 of buddy.c makes every computed order
at least `MIN_ORDER`. -/
theorem computeOrder_ge_min (size : Int) : MIN_ORDER ≤ computeOrder size := by
  unfold computeOrder
  dsimp only
  split
  · exact Nat.le_refl _
  · rename_i hlt
    omega

/-- C5: allocate-then-free round trip.  From the post-init state, for every
size that `buddy_alloc` can satisfy (it returns an address), immediately
freeing that address restores the post-init free-list state: every list
`free_area[MIN_ORDER..MAX_ORDER]` is exactly as after `buddy_init` (a single
block — page 0 — on `free_area[MAX_ORDER]`, all other lists empty), and page
0's descriptor is again free at order `MAX_ORDER` with its own address.  The
quantification over the out-of-bounds-read value `oob` covers the
`order = MAX_ORDER` case, where `buddy_free` reads `g_pages[256]`. -/
theorem C5_alloc_free_round_trip (size : Int) (oob : Bool) (a : Nat)
    (h : (buddy_alloc buddy_init size).1 = some a) :
    (List.range (MAX_ORDER + 1)).map (buddy_free oob (buddy_alloc buddy_init size).2 a).freeArea
      = (List.range (MAX_ORDER + 1)).map buddy_init.freeArea ∧
    (buddy_free oob (buddy_alloc buddy_init size).2 a).pages 0 = buddy_init.pages 0 := by
  have hg : ∀ k, MIN_ORDER ≤ k → k ≤ MAX_ORDER →
      (allocOrder buddy_init k).1 = some 0 ∧
      (List.range (MAX_ORDER + 1)).map (buddy_free oob (allocOrder buddy_init k).2 0).freeArea
        = (List.range (MAX_ORDER + 1)).map buddy_init.freeArea ∧
      (buddy_free oob (allocOrder buddy_init k).2 0).pages 0 = buddy_init.pages 0 := by
    intro k hk1 hk2
    have hk1n : 12 ≤ k := hk1
    have hk2n : k ≤ 20 := hk2
    interval_cases k <;> cases oob <;> decide
  have hk1 := computeOrder_ge_min size
  have hk2 : computeOrder size ≤ MAX_ORDER := by
    by_contra hgt
    have hnone := allocOrder_none_of_gt_max buddy_init (computeOrder size)
      buddy_init_freeArea_gt_max (by omega)
    have h2 : (allocOrder buddy_init (computeOrder size)).1 = some a := h
    rw [hnone] at h2
    exact Option.noConfusion h2
  obtain ⟨hv, hmap, hpg⟩ := hg (computeOrder size) hk1 hk2
  have h2 : (allocOrder buddy_init (computeOrder size)).1 = some a := h
  rw [hv] at h2
  obtain rfl : a = 0 := (Option.some.inj h2).symm
  exact ⟨hmap, hpg⟩

/-- Witness for `C5_alloc_free_round_trip` at size 4096 (the returned
address is 0). -/
theorem C5_alloc_free_round_trip_witness :
    (List.range (MAX_ORDER + 1)).map
        (buddy_free false (buddy_alloc buddy_init 4096).2 0).freeArea
      = (List.range (MAX_ORDER + 1)).map buddy_init.freeArea ∧
    (buddy_free false (buddy_alloc buddy_init 4096).2 0).pages 0 = buddy_init.pages 0 :=
  C5_alloc_free_round_trip 4096 false 0 (by decide)

/-- Witness for `C9_free_terminates_bounded`: freeing address 0 in the state
after `init; alloc(8192)` (recorded order 13) performs at most 8 merge
iterations and ends at an order of at most 20. -/
theorem C9_free_terminates_bounded_witness :
    MIN_ORDER ≤ ((exA1.2).pages (ADDR_TO_PAGE 0)).order ∧
    (freeMergePhase false exA1.2 0).2 ≤ MAX_ORDER - MIN_ORDER ∧
    (freeMergePhase false exA1.2 0).1.2.2 =
      ((exA1.2).pages (ADDR_TO_PAGE 0)).order + (freeMergePhase false exA1.2 0).2 ∧
    (((exA1.2).pages (ADDR_TO_PAGE 0)).order ≤ MAX_ORDER →
      (freeMergePhase false exA1.2 0).1.2.2 ≤ MAX_ORDER) :=
  ⟨by decide, C9_free_terminates_bounded false exA1.2 0 (by decide)⟩

/-- Helper: XOR with `2^t` on a multiple of `2^(t+1)` just sets bit `t`. -/
theorem xor_two_pow_mul (t q : Nat) :
    (2 ^ (t + 1) * q) ^^^ 2 ^ t = 2 ^ (t + 1) * q + 2 ^ t := by
  apply Nat.eq_of_testBit_eq
  intro j
  have hlt : 2 ^ t < 2 ^ (t + 1) := Nat.pow_lt_pow_succ (by omega)
  rw [Nat.testBit_xor, Nat.testBit_mul_pow_two_add q hlt j, Nat.testBit_mul_pow_two]
  rcases Nat.lt_or_ge j (t + 1) with hj | hj
  · rw [if_pos hj]
    have h1 : ¬ (j ≥ t + 1) := by omega
    simp [h1]
  · rw [if_neg (by omega)]
    have h1 : t ≠ j := by omega
    simp [hj, Nat.testBit_two_pow, h1]

/-- Helper: `BUDDY_ADDR`-style XOR of an address aligned to `2^m` with the
half-size `2^t` (for `t < m`) is plain addition: the buddy of the lower half
is the upper half. -/
theorem xor_two_pow_of_dvd (a t m : Nat) (h : 2 ^ m ∣ a) (ht : t < m) :
    a ^^^ 2 ^ t = a + 2 ^ t := by
  obtain ⟨q, hq⟩ : 2 ^ (t + 1) ∣ a := dvd_trans (Nat.pow_dvd_pow 2 (by omega)) h
  subst hq
  exact xor_two_pow_mul t q

/-- Helper: powers of two with distinct exponents differ. -/
theorem two_pow_ne_of_ne {a b : Nat} (hab : a ≠ b) : (2 : Nat) ^ a ≠ 2 ^ b :=
  fun h2 => hab (Nat.pow_right_injective (by norm_num) h2)

/-- Helper: reading back the descriptor just written. -/
theorem setPage_pages_self (s : St) (i : Nat) (p : Page) : (setPage s i p).pages i = p := by
  simp [setPage]

/-- Helper: writing one descriptor leaves the others unchanged. -/
theorem setPage_pages_ne (s : St) (i i2 : Nat) (p : Page) (h : i ≠ i2) :
    (setPage s i2 p).pages i = s.pages i := by
  simp [setPage, h]

/-- Helper (specification of `buddy_alloc`'s split loop, buddy.c lines
153-161): splitting block `j` from order `k + d` down to order `k`, provided
`j`'s descriptor carries its own address and that address is aligned to
`2^(k+d)`, (1) never rewrites `j`'s descriptor, (2) prepends exactly the
upper half `j + 2^(k+t-MIN_ORDER)` to `free_area[k+t]` for each level
`t < d`, (3) stamps each such upper-half descriptor free at order `k+t` with
its aligned address, (4) touches no other free list, and (5) touches no
other descriptor. -/
theorem splitDown_spec (j k : Nat) (hk : MIN_ORDER ≤ k) :
    ∀ d s, (s.pages j).addr = PAGE_TO_ADDR j → 2 ^ (k + d) ∣ PAGE_TO_ADDR j →
      (splitDown j k d s).pages j = s.pages j ∧
      (∀ t, t < d → (splitDown j k d s).freeArea (k + t)
          = (j + 2 ^ (k + t - MIN_ORDER)) :: s.freeArea (k + t)) ∧
      (∀ t, t < d → (splitDown j k d s).pages (j + 2 ^ (k + t - MIN_ORDER))
          = ⟨true, k + t, PAGE_TO_ADDR j + 2 ^ (k + t)⟩) ∧
      (∀ o, o < k ∨ k + d ≤ o → (splitDown j k d s).freeArea o = s.freeArea o) ∧
      (∀ i, (∀ t, t < d → i ≠ j + 2 ^ (k + t - MIN_ORDER)) →
          (splitDown j k d s).pages i = s.pages i) := by
  intro d
  induction d with
  | zero =>
    intro s ha hal
    exact ⟨rfl, fun t ht => absurd ht (Nat.not_lt_zero t),
      fun t ht => absurd ht (Nat.not_lt_zero t), fun o _ => rfl, fun i _ => rfl⟩
  | succ d ih =>
    intro s ha hal
    have hal' : 2 ^ (k + d) ∣ PAGE_TO_ADDR j :=
      dvd_trans (Nat.pow_dvd_pow 2 (Nat.le_succ _)) hal
    have hx : BUDDY_ADDR ((s.pages j).addr) (k + d) = PAGE_TO_ADDR j + 2 ^ (k + d) := by
      rw [ha]
      exact xor_two_pow_of_dvd _ _ (k + d + 1) hal (Nat.lt_succ_self _)
    have hrIdx : ADDR_TO_PAGE (BUDDY_ADDR ((s.pages j).addr) (k + d))
        = j + 2 ^ (k + d - MIN_ORDER) := by
      rw [hx]
      unfold ADDR_TO_PAGE PAGE_TO_ADDR PAGE_SIZE
      have h1 : 2 ^ (k + d) = 2 ^ (k + d - MIN_ORDER) * 2 ^ MIN_ORDER := by
        rw [← Nat.pow_add]
        congr 1
        omega
      rw [h1, ← Nat.add_mul]
      exact Nat.mul_div_cancel _ (Nat.two_pow_pos _)
    have hstep : splitDown j k (d + 1) s =
        splitDown j k d
          (listAdd
            (setPage s (j + 2 ^ (k + d - MIN_ORDER))
              ⟨true, k + d, BUDDY_ADDR ((s.pages j).addr) (k + d)⟩)
            (j + 2 ^ (k + d - MIN_ORDER)) (k + d)) := by
      show splitDown j k d
          (listAdd
            (setPage s (ADDR_TO_PAGE (BUDDY_ADDR ((s.pages j).addr) (k + d)))
              ⟨true, k + d, BUDDY_ADDR ((s.pages j).addr) (k + d)⟩)
            (ADDR_TO_PAGE (BUDDY_ADDR ((s.pages j).addr) (k + d))) (k + d)) = _
      rw [hrIdx]
    set s2 := listAdd
        (setPage s (j + 2 ^ (k + d - MIN_ORDER))
          ⟨true, k + d, BUDDY_ADDR ((s.pages j).addr) (k + d)⟩)
        (j + 2 ^ (k + d - MIN_ORDER)) (k + d) with hs2
    have hne : j ≠ j + 2 ^ (k + d - MIN_ORDER) := by
      have := Nat.two_pow_pos (k + d - MIN_ORDER)
      omega
    have hs2pj : s2.pages j = s.pages j := by
      simp [hs2, listAdd, setPage, hne]
    have hs2pr : s2.pages (j + 2 ^ (k + d - MIN_ORDER))
        = ⟨true, k + d, PAGE_TO_ADDR j + 2 ^ (k + d)⟩ := by
      rw [← hx]
      simp [hs2, listAdd, setPage]
    have hs2fa : ∀ o, o ≠ k + d → s2.freeArea o = s.freeArea o := by
      intro o hneo
      simp [hs2, listAdd, setPage, hneo]
    have hs2fd : s2.freeArea (k + d) = (j + 2 ^ (k + d - MIN_ORDER)) :: s.freeArea (k + d) := by
      simp [hs2, listAdd, setPage]
    have ha2 : (s2.pages j).addr = PAGE_TO_ADDR j := by rw [hs2pj, ha]
    obtain ⟨iha, ihb, ihc, ihd, ihe⟩ := ih s2 ha2 hal'
    rw [hstep]
    refine ⟨iha.trans hs2pj, ?_, ?_, ?_, ?_⟩
    · intro t ht
      rcases Nat.lt_or_ge t d with htd | htd
      · rw [ihb t htd, hs2fa (k + t) (by omega)]
      · have htd2 : t = d := by omega
        subst htd2
        rw [ihd (k + t) (Or.inr (Nat.le_refl _)), hs2fd]
    · intro t ht
      rcases Nat.lt_or_ge t d with htd | htd
      · exact ihc t htd
      · have htd2 : t = d := by omega
        subst htd2
        have havoid : ∀ t2, t2 < t →
            j + 2 ^ (k + t - MIN_ORDER) ≠ j + 2 ^ (k + t2 - MIN_ORDER) := by
          intro t2 ht2
          have hexp : k + t - MIN_ORDER ≠ k + t2 - MIN_ORDER := by omega
          have := two_pow_ne_of_ne hexp
          omega
        rw [ihe _ havoid, hs2pr]
    · intro o hor
      have h1 : o < k ∨ k + d ≤ o := by omega
      rw [ihd o h1, hs2fa o (by omega)]
    · intro i havoid
      have h1 : ∀ t, t < d → i ≠ j + 2 ^ (k + t - MIN_ORDER) := fun t ht => havoid t (by omega)
      rw [ihe i h1]
      have h2 : i ≠ j + 2 ^ (k + d - MIN_ORDER) := havoid d (Nat.lt_succ_self d)
      simp [hs2, listAdd, setPage, h2]

/-- Helper: the upward scan of `buddy_alloc` returns the block picked by
`scanPick` at the first non-empty list `m`, skipping the empty lists in
between. -/
theorem scanUpF_finds (s : St) (j m : Nat) (hm : m ≤ MAX_ORDER)
    (hpick : scanPick s (s.freeArea m) = some j) :
    ∀ fuel no, no ≤ m → m - no < fuel →
      (∀ o, no ≤ o → o < m → s.freeArea o = []) →
      scanUpF s fuel no = some (j, m) := by
  intro fuel
  induction fuel with
  | zero => intro no h1 h2 h3; omega
  | succ fuel ih =>
    intro no h1 h2 h3
    unfold scanUpF
    rw [if_neg (by omega : ¬ MAX_ORDER < no)]
    rcases Nat.eq_or_lt_of_le h1 with heq | hlt
    · subst heq
      rw [hpick]
    · rw [h3 no (Nat.le_refl no) hlt]
      exact ih (no + 1) hlt (by omega) (fun o ho1 ho2 => h3 o (by omega) ho2)

/-- Helper: the slow (split) path of `allocOrder` written out: when the
exact-fit list is empty and the scan finds `(j, m)`, the result is `j`'s
address and the state after unlink, split and the final
`order`/`free` stamping. -/
theorem allocOrder_slow (s : St) (order : Nat) (j m : Nat)
    (hfast : s.freeArea order = [])
    (hscan : scanUpF s (MAX_ORDER + 2) (order + 1) = some (j, m)) :
    allocOrder s order =
      (some (((setPage (splitDown j order (m - order) (listDel s j)) j
          { (splitDown j order (m - order) (listDel s j)).pages j with
              order := order, free := false }).pages j).addr),
        setPage (splitDown j order (m - order) (listDel s j)) j
          { (splitDown j order (m - order) (listDel s j)).pages j with
              order := order, free := false }) := by
  unfold allocOrder
  rw [hfast, hscan]
  rfl

/-- C10: the split path of `buddy_alloc`.  When the exact-fit list for the
computed order `k` is empty and the upward scan finds block `j` on
`free_area[m]` (all lists strictly between empty), with `j`'s descriptor
carrying its own address, that address aligned to the block's size `2^m`,
and `j` on no lower list, then: the returned address is exactly the base
address of the block removed from `free_area[m]`; the block being split
keeps that lower address all the way down (its descriptor ends allocated at
order `k` with the same address); and for every level `k ≤ o < m` the upper
half `j + 2^(o-MIN_ORDER)` — at its aligned address
`PAGE_TO_ADDR j + 2^o` — is the block inserted (at the front) into
`free_area[o]`, its descriptor stamped free at order `o`. -/
theorem C10_split_keeps_low_half (s : St) (size : Int) (j m : Nat)
    (hfast : s.freeArea (computeOrder size) = [])
    (hkm : computeOrder size < m) (hm : m ≤ MAX_ORDER)
    (hmid : ∀ o, computeOrder size < o → o < m → s.freeArea o = [])
    (hpick : scanPick s (s.freeArea m) = some j)
    (haddr : (s.pages j).addr = PAGE_TO_ADDR j)
    (halign : 2 ^ m ∣ PAGE_TO_ADDR j)
    (hnot : ∀ o, o < m → j ∉ s.freeArea o) :
    (buddy_alloc s size).1 = some (PAGE_TO_ADDR j) ∧
    (buddy_alloc s size).2.pages j = ⟨false, computeOrder size, PAGE_TO_ADDR j⟩ ∧
    (∀ o, computeOrder size ≤ o → o < m →
      (buddy_alloc s size).2.freeArea o = (j + 2 ^ (o - MIN_ORDER)) :: s.freeArea o ∧
      (buddy_alloc s size).2.pages (j + 2 ^ (o - MIN_ORDER)) =
        ⟨true, o, PAGE_TO_ADDR j + 2 ^ o⟩) := by
  have hk := computeOrder_ge_min size
  set k := computeOrder size with hkdef
  have hscan : scanUpF s (MAX_ORDER + 2) (k + 1) = some (j, m) :=
    scanUpF_finds s j m hm hpick (MAX_ORDER + 2) (k + 1) hkm (by omega)
      (fun o ho1 ho2 => hmid o (by omega) ho2)
  have hred := allocOrder_slow s k j m hfast hscan
  have hba : buddy_alloc s size = allocOrder s k := rfl
  have haddr1 : ((listDel s j).pages j).addr = PAGE_TO_ADDR j := haddr
  have halign1 : 2 ^ (k + (m - k)) ∣ PAGE_TO_ADDR j := by
    rw [show k + (m - k) = m by omega]
    exact halign
  obtain ⟨sa, sb, sc, sd, se⟩ :=
    splitDown_spec j k hk (m - k) (listDel s j) haddr1 halign1
  refine ⟨?_, ?_, ?_⟩
  · rw [hba, hred]
    dsimp only
    rw [setPage_pages_self]
    dsimp only
    rw [sa]
    exact congrArg some haddr
  · rw [hba, hred]
    dsimp only
    rw [setPage_pages_self, sa]
    exact congrArg (Page.mk false k) haddr
  · intro o ho1 ho2
    obtain ⟨t, rfl⟩ : ∃ t, o = k + t := ⟨o - k, by omega⟩
    have ht : t < m - k := by omega
    have hne2 : j + 2 ^ (k + t - MIN_ORDER) ≠ j := by
      have := Nat.two_pow_pos (k + t - MIN_ORDER)
      omega
    constructor
    · rw [hba, hred]
      show (splitDown j k (m - k) (listDel s j)).freeArea (k + t) = _
      rw [sb t ht]
      exact congrArg _ (List.erase_of_not_mem (hnot _ ho2))
    · rw [hba, hred]
      show (setPage (splitDown j k (m - k) (listDel s j)) j
          _).pages (j + 2 ^ (k + t - MIN_ORDER)) = _
      rw [setPage_pages_ne _ _ _ _ hne2]
      exact sc t ht

/-- Witness for `C10_split_keeps_low_half`: the first `alloc(4096)` after
init splits the order-20 block at page 0 down to order 12, returning address
0 and leaving each upper half `2^(o-12)` free at order `o` for
`12 ≤ o < 20`. -/
theorem C10_split_keeps_low_half_witness :
    (buddy_alloc buddy_init 4096).1 = some (PAGE_TO_ADDR 0) ∧
    (buddy_alloc buddy_init 4096).2.pages 0 = ⟨false, computeOrder 4096, PAGE_TO_ADDR 0⟩ ∧
    (∀ o, computeOrder 4096 ≤ o → o < 20 →
      (buddy_alloc buddy_init 4096).2.freeArea o
          = (0 + 2 ^ (o - MIN_ORDER)) :: buddy_init.freeArea o ∧
      (buddy_alloc buddy_init 4096).2.pages (0 + 2 ^ (o - MIN_ORDER)) =
        ⟨true, o, PAGE_TO_ADDR 0 + 2 ^ o⟩) :=
  C10_split_keeps_low_half buddy_init 4096 0 20 (by decide) (by decide) (by decide)
    (fun o h1 h2 => by
      have h3 : o ≠ 20 := by omega
      simp [buddy_init, MAX_ORDER, h3])
    (by decide) (by decide) (by decide)
    (fun o ho => by
      have h3 : o ≠ 20 := by omega
      simp [buddy_init, MAX_ORDER, h3])

end BuddyC
